import Mathlib

/-!
Shallow embedding of the sensitive-data detection engine of the Sifitlier
repository (`src/backend/dlp_detector.py`), together with theorems checking
the natural-language specification against it.

Modelling conventions:
* Python strings are `List Char`; confidences are rationals (`ℚ`). All
  arithmetic the pipeline performs on them (halving) is exact in binary64,
  and every comparison it makes gives the same result on the exact rationals
  as on the floats, so only `round(x, 2)` sees the float representation:
  `round2` models it exactly through `float64`, the value of the nearest
  binary64 float.
* The `confidence` loop variable of `analyze` is shared by all matches of
  one pattern: the halving at line 281 persists into later matches of the
  same pattern. `patternHitsGo` threads that state through the scan.
* Fallible Python code (an expression that can raise, such as `parts[0][0]`)
  is modelled with `Option`; `none` stands for a raised exception.
* `re.finditer` is modelled by an executable backtracking matcher with
  Python's semantics (leftmost alternative first, greedy repetition,
  `re.IGNORECASE` applied to every pattern, as `analyze` does).
* Python's stable `list.sort` is modelled by `List.insertionSort`, which is
  stable for the same key order, hence produces the identical list.
-/

/-- ASCII decimal digit: `[0-9]` in the pattern grammars and the digits
accepted by `str.isdigit` on the ASCII text the detector handles. -/
def isAsciiDigit (c : Char) : Bool := decide ('0' ≤ c ∧ c ≤ '9')

/-- ASCII uppercase letter. -/
def isAsciiUpper (c : Char) : Bool := decide ('A' ≤ c ∧ c ≤ 'Z')

/-- ASCII lowercase letter. -/
def isAsciiLower (c : Char) : Bool := decide ('a' ≤ c ∧ c ≤ 'z')

/-- ASCII letter. -/
def isAsciiAlpha (c : Char) : Bool := isAsciiUpper c || isAsciiLower c

/-- Python's `\s` on ASCII text: space, tab, newline, carriage return,
vertical tab, form feed. -/
def isPySpace (c : Char) : Bool :=
  c = ' ' || c = '\t' || c = '\n' || c = '\x0d' || c = '\x0b' || c = '\x0c'

/-- The separator class `[-\s]` that `_validate_luhn` and `_mask_text` strip
with `re.sub(r'[-\s]', '', ...)`. -/
def isSepChar (c : Char) : Bool := c = '-' || isPySpace c

/-- Python's `\w` (ASCII): letter, digit or underscore; used by `\b`. -/
def isWordChar (c : Char) : Bool := isAsciiAlpha c || isAsciiDigit c || c = '_'

/-- Python `str.isdigit` restricted to ASCII: nonempty and all digits. -/
def pyIsDigit (s : List Char) : Bool := !s.isEmpty && s.all isAsciiDigit

/-- The `SensitivityLevel` string enum of `dlp_detector.py`. -/
inductive SensitivityLevel where
  | critical
  | high
  | medium
  | low
  | none
deriving Repr, DecidableEq

/-- String value of an enum member (`SensitivityLevel.CRITICAL.value` etc.). -/
def SensitivityLevel.value : SensitivityLevel → String
  | SensitivityLevel.critical => "critical"
  | SensitivityLevel.high => "high"
  | SensitivityLevel.medium => "medium"
  | SensitivityLevel.low => "low"
  | SensitivityLevel.none => "none"

/-- `DLPDetector._sensitivity_rank`. -/
def sensitivity_rank : SensitivityLevel → Nat
  | SensitivityLevel.none => 0
  | SensitivityLevel.low => 1
  | SensitivityLevel.medium => 2
  | SensitivityLevel.high => 3
  | SensitivityLevel.critical => 4

/-- Numeric value of a digit character. -/
def charDigitVal (c : Char) : Nat := c.toNat - '0'.toNat

/-- One term of the Luhn sum at (0-based) index `i` of the reversed digit
string: every second digit from the right is doubled, and 9 is subtracted
when the doubled value exceeds 9. -/
def luhnTerm (i : Nat) (d : Nat) : Nat :=
  if i % 2 = 1 then (if d * 2 > 9 then d * 2 - 9 else d * 2) else d

/-- `DLPDetector._validate_luhn`: strip `[-\s]`, reject if the residue is not
all digits or shorter than 13, otherwise check the Luhn sum mod 10. -/
def validate_luhn (card_number : List Char) : Bool :=
  let digits := card_number.filter (fun c => !(isSepChar c))
  if !(pyIsDigit digits) || digits.length < 13 then false
  else decide ((((digits.reverse).enum).map
    (fun p => luhnTerm p.1 (charDigitVal p.2))).sum % 10 = 0)

/-- Round a rational to the nearest integer, ties to even. -/
def rnearestEven (x : ℚ) : ℤ :=
  let fl : ℤ := ⌊x⌋
  if x - fl < 1/2 then fl
  else if 1/2 < x - fl then fl + 1
  else if fl % 2 = 0 then fl else fl + 1

/-- Number of doublings that bring a positive rational up to at least 1
(fuel-bounded; 1100 covers the whole binary64 normal range). -/
def upShifts : ℚ → Nat → Nat
  | _, 0 => 0
  | q, f + 1 => if 1 ≤ q then 0 else upShifts (q * 2) f + 1

/-- Number of halvings that bring a rational below 2 (fuel-bounded). -/
def downShifts : ℚ → Nat → Nat
  | _, 0 => 0
  | q, f + 1 => if q < 2 then 0 else downShifts (q / 2) f + 1

/-- Exact rational value of the IEEE-754 binary64 float nearest to a
positive rational (round to nearest, ties to even; normal range, which
covers every number the detector computes): scale into [1, 2), round the
53-bit significand, scale back. -/
def float64Pos (p : ℚ) : ℚ :=
  let m := upShifts p 1100
  let d := downShifts p 1100
  let num : ℚ := ((2 ^ (m + 52) : Nat) : ℚ)
  let den : ℚ := ((2 ^ d : Nat) : ℚ)
  ((rnearestEven (p * num / den) : ℤ) : ℚ) * den / num

/-- Exact rational value of the binary64 float nearest to `q`. Python holds
every confidence as such a float. -/
def float64 (q : ℚ) : ℚ :=
  if q = 0 then 0
  else if q < 0 then -(float64Pos (-q))
  else float64Pos q

/-- Python `round(x, 2)` on a float: correctly-rounded decimal rounding
(ties to even) of the exact binary value of the float holding `x`. The
returned float prints and compares as n/100, modelled by that exact
rational. The float representation error matters: `round(0.475, 2)` is
0.47, not 0.48, because the float below 0.475 is stored. -/
def round2 (q : ℚ) : ℚ :=
  ((rnearestEven (float64 q * 100) : ℤ) : ℚ) / 100

/-- Python `str.split(sep)` for a one-character separator: splits on every
occurrence, keeping empty pieces; the result is always nonempty. -/
def splitOnChar (sep : Char) : List Char → List (List Char)
  | [] => [[]]
  | c :: rest =>
    if c = sep then [] :: splitOnChar sep rest
    else
      match splitOnChar sep rest with
      | [] => [[c]]
      | g :: gs => (c :: g) :: gs

/-- Python `s[-n:]`: the last `n` characters (the whole list when shorter). -/
def lastN (n : Nat) (l : List Char) : List Char := l.drop (l.length - n)

/-- Default branch of `_mask_text`: first 2 characters, stars, last 2 when
longer than 4 characters, otherwise all stars. -/
def genericMask (text : List Char) : List Char :=
  if text.length > 4 then
    text.take 2 ++ List.replicate (text.length - 4) '*' ++ lastN 2 text
  else List.replicate text.length '*'

/-- `DLPDetector._mask_text`. Returns `none` exactly where the Python code
would raise: `parts[0][0]` when an email-category text starts with `'@'` and
splits into exactly two parts. -/
def mask_text (text : List Char) (category : String) : Option (List Char) :=
  let clean := text.filter (fun c => !(isSepChar c))
  if category = "credit_card" then
    some ("****-****-****-".toList ++ lastN 4 clean)
  else if category = "phone" then
    some ("***-***-".toList ++ lastN 4 clean)
  else if category = "ssn" then
    some ("***-**-".toList ++ lastN 4 clean)
  else if category = "email" then
    match splitOnChar '@' text with
    | [lpart, dpart] =>
      match lpart with
      | [] => Option.none
      | c :: _ => some (c :: ("***@".toList ++ dpart))
    | _ => some (genericMask text)
  else if category = "password" ∨ category = "pin" ∨ category = "api_key" ∨ category = "cvv" then
    some (List.replicate (min text.length 12) '*')
  else some (genericMask text)

/-- One raw candidate of the scanning loop of `analyze`: the pattern metadata
together with the matched substring and its span (the loop variables at the
top of the `for match in re.finditer(...)` body). -/
structure RawHit where
  category : String
  description : String
  matched_text : List Char
  sensitivity : SensitivityLevel
  confidence : ℚ
  start_pos : Nat
  end_pos : Nat
deriving Repr, DecidableEq

/-- The credit-card validation step of `analyze` (lines 279-283): a
credit-card candidate failing Luhn has its confidence halved and is dropped
when the result is below 0.5; everything else passes unchanged. -/
def validateHit (h : RawHit) : Option RawHit :=
  if h.category = "credit_card" ∧ validate_luhn h.matched_text = false then
    if h.confidence * (1/2) < 1/2 then Option.none
    else some { h with confidence := h.confidence * (1/2) }
  else some h

/-- One entry of the `matches` list that `analyze` builds (the dict appended
at lines 288-299, with the nested `position` dict flattened). -/
structure MatchRecord where
  category : String
  description : String
  matched_text : List Char
  masked_text : List Char
  sensitivity : String
  confidence : ℚ
  start_pos : Nat
  end_pos : Nat
deriving Repr, DecidableEq

/-- The record `analyze` appends for a validated hit and its masked text. -/
def mkRecord (h : RawHit) (masked : List Char) : MatchRecord :=
  { category := h.category
    description := h.description
    matched_text := h.matched_text
    masked_text := masked
    sensitivity := h.sensitivity.value
    confidence := round2 h.confidence
    start_pos := h.start_pos
    end_pos := h.end_pos }

/-- The `matches` list appended by the main loop of `analyze`, in order:
validate each hit, mask it, build the record. `none` models an exception
raised by `_mask_text`. -/
def collectRecords : List RawHit → Option (List MatchRecord)
  | [] => some []
  | h :: hs =>
    match validateHit h with
    | Option.none => collectRecords hs
    | some v =>
      match mask_text v.matched_text v.category with
      | Option.none => Option.none
      | some m =>
        match collectRecords hs with
        | Option.none => Option.none
        | some rs => some (mkRecord v m :: rs)

/-- Hits that survive the validation step, in loop order. -/
def keptHits (hits : List RawHit) : List RawHit := hits.filterMap validateHit

/-- The `categories_found` set, as its insertion-ordered list of distinct
elements. Python iterates a `set` in an unspecified order; only membership
in the resulting `categories` list is specified or used. -/
def catsOf (hits : List RawHit) : List String :=
  (keptHits hits).foldl
    (fun acc h => if h.category ∈ acc then acc else acc ++ [h.category]) []

/-- The running `highest_sensitivity` accumulator of `analyze`, updated for
every appended (validated) hit. -/
def highestOf (hits : List RawHit) : SensitivityLevel :=
  (keptHits hits).foldl
    (fun acc h =>
      if sensitivity_rank acc < sensitivity_rank h.sensitivity then h.sensitivity else acc)
    SensitivityLevel.none

/-- Key order of `matches.sort(key=lambda x: x["confidence"], reverse=True)`:
`confGe a b` holds when `a` may be placed before `b`. -/
def confGe (a b : MatchRecord) : Prop := b.confidence ≤ a.confidence

instance : DecidableRel confGe := fun _ b => inferInstanceAs (Decidable (b.confidence ≤ _))

instance : IsTotal MatchRecord confGe := ⟨fun a b => le_total b.confidence a.confidence⟩

instance : IsTrans MatchRecord confGe := ⟨fun _ _ _ h h2 => le_trans h2 h⟩

/-- Python's stable in-place sort by descending confidence. `insertionSort`
with `confGe` inserts each element before the first later element of strictly
smaller key, which is exactly the stable descending order. -/
def sortByConfDesc (l : List MatchRecord) : List MatchRecord := l.insertionSort confGe

/-- The span-dedup loop of `_deduplicate_matches`: keep the first record seen
for every `(start, end)` span. -/
def dedupLoop : List MatchRecord → List (Nat × Nat) → List MatchRecord
  | [], _ => []
  | m :: ms, seen =>
    if (m.start_pos, m.end_pos) ∈ seen then dedupLoop ms seen
    else m :: dedupLoop ms ((m.start_pos, m.end_pos) :: seen)

/-- `DLPDetector._deduplicate_matches`: sort by descending confidence
(stable), then keep the first record per distinct span. -/
def deduplicate_matches (l : List MatchRecord) : List MatchRecord :=
  dedupLoop (sortByConfDesc l) []

/-- `DLPDetector._generate_recommendation`. The emoji prefixes of the source
strings are omitted; only the textual structure is modelled. -/
def generate_recommendation (sensitivity : SensitivityLevel) (categories : List String) : String :=
  match sensitivity with
  | SensitivityLevel.none =>
    "No sensitive data detected. Safe to send."
  | SensitivityLevel.low =>
    "Low sensitivity data detected. Consider if the recipient needs this information."
  | SensitivityLevel.medium =>
    "Medium sensitivity data detected. Verify you trust the recipient before sending."
  | SensitivityLevel.high =>
    "High sensitivity data detected! Only send if absolutely necessary and to trusted recipients."
  | SensitivityLevel.critical =>
    "CRITICAL: Highly sensitive data detected (" ++ String.intercalate ", " (categories.take 3) ++
      ")! Strongly recommend NOT sending this information via this channel."

/-- The dictionary `DLPDetector.analyze` returns. -/
structure ScanReport where
  has_sensitive_data : Bool
  sensitivity_level : String
  total_matches : Nat
  categories : List String
  «matches» : List MatchRecord
  recommendation : String
deriving Repr, DecidableEq

/-- Body of `DLPDetector.analyze` after the regex loop, as a function of the
raw hits the loop iterates over. `none` models an uncaught exception. -/
def analyzeHits (hits : List RawHit) : Option ScanReport :=
  match collectRecords hits with
  | Option.none => Option.none
  | some ms =>
    some
      { has_sensitive_data := decide (0 < (deduplicate_matches ms).length)
        sensitivity_level := (highestOf hits).value
        total_matches := (deduplicate_matches ms).length
        categories := catsOf hits
        «matches» := deduplicate_matches ms
        recommendation := generate_recommendation (highestOf hits) (catsOf hits) }


/-- Regular-expression abstract syntax for the subset of Python `re` used by
the pattern catalog. Character classes are predicates with `re.IGNORECASE`
already applied (as `analyze` passes it for every pattern); capturing groups
only group, since `analyze` uses `match.group()`, the whole match. -/
inductive RE where
  | eps
  | chr (c : Char)
  | cls (p : Char → Bool)
  | seq (a b : RE)
  | alt (a b : RE)
  | rep (a : RE) (lo : Nat) (hi : Option Nat)
  | wordB

/-- Whether the character at position `p` exists and is a word character. -/
def wordAt (t : List Char) (p : Nat) : Bool :=
  match t.get? p with
  | some c => isWordChar c
  | Option.none => false

/-- Python `\b`: a position with a word character on exactly one side. -/
def isBoundary (t : List Char) (p : Nat) : Bool :=
  (if p = 0 then false else wordAt t (p - 1)) != wordAt t p

/-- Backtracking matcher with Python `re` semantics: leftmost alternative
preferred, greedy repetition, literals compared case-insensitively
(`re.IGNORECASE`). `matchRE fuel r t p k` runs `r` at position `p` of `t`
and passes each candidate end position to the continuation `k` in Python's
preference order, returning the first success. A repetition iteration that
consumes nothing ends the loop, as in Python. Fuel bounds call depth; every
use supplies enough for the catalog's patterns. -/
def matchRE : Nat → RE → List Char → Nat → (Nat → Option Nat) → Option Nat
  | 0, _, _, _, _ => Option.none
  | _ + 1, RE.eps, _, p, k => k p
  | _ + 1, RE.chr c, t, p, k =>
    match t.get? p with
    | some c2 => if c2.toLower = c.toLower then k (p + 1) else Option.none
    | Option.none => Option.none
  | _ + 1, RE.cls pr, t, p, k =>
    match t.get? p with
    | some c2 => if pr c2 then k (p + 1) else Option.none
    | Option.none => Option.none
  | f + 1, RE.seq a b, t, p, k => matchRE f a t p (fun q => matchRE f b t q k)
  | f + 1, RE.alt a b, t, p, k =>
    match matchRE f a t p k with
    | some e => some e
    | Option.none => matchRE f b t p k
  | _ + 1, RE.wordB, t, p, k => if isBoundary t p then k p else Option.none
  | f + 1, RE.rep a lo hi, t, p, k =>
    match hi with
    | some 0 => k p
    | _ =>
      if lo = 0 then
        match matchRE f a t p
            (fun q => if q = p then Option.none
                      else matchRE f (RE.rep a 0 (hi.map (· - 1))) t q k) with
        | some e => some e
        | Option.none => k p
      else
        matchRE f a t p
          (fun q => if q = p then Option.none
                    else matchRE f (RE.rep a (lo - 1) (hi.map (· - 1))) t q k)

/-- Fuel that bounds the matcher's call depth for every catalog pattern. -/
def reFuel (t : List Char) : Nat := 5 * t.length + 600

/-- End position of the match Python's engine reports at start `p`, if any. -/
def matchAt (r : RE) (t : List Char) (p : Nat) : Option Nat :=
  matchRE (reFuel t) r t p some

/-- Scanning loop of `re.finditer`: try each start position left to right;
after a match continue at its end (one past it when it was empty). -/
def finditerAux (r : RE) (t : List Char) : Nat → Nat → List (Nat × Nat)
  | 0, _ => []
  | f + 1, p =>
    if t.length < p then []
    else
      match matchAt r t p with
      | some e => (p, e) :: (if p < e then finditerAux r t f e else finditerAux r t f (p + 1))
      | Option.none => finditerAux r t f (p + 1)

/-- Python `re.finditer`: all non-overlapping match spans, leftmost first. -/
def finditer (r : RE) (t : List Char) : List (Nat × Nat) :=
  finditerAux r t (t.length + 2) 0

/-- Sequence of literal characters. -/
def rstr (s : String) : RE := (s.toList.map RE.chr).foldr RE.seq RE.eps

/-- Sequence of patterns. -/
def rseq (l : List RE) : RE := l.foldr RE.seq RE.eps

/-- Alternation, preferring earlier entries (Python's order). -/
def ralt : List RE → RE
  | [] => RE.eps
  | [r] => r
  | r :: rs => RE.alt r (ralt rs)

/-- Pattern `r?`. -/
def ropt (r : RE) : RE := RE.rep r 0 (some 1)

/-- Pattern `r+`. -/
def rplus (r : RE) : RE := RE.rep r 1 Option.none

/-- Pattern `r*`. -/
def rstar (r : RE) : RE := RE.rep r 0 Option.none

/-- Pattern `r{n}`. -/
def rexact (r : RE) (n : Nat) : RE := RE.rep r n (some n)

/-- Pattern `r{lo,hi}`. -/
def rrange (r : RE) (lo hi : Nat) : RE := RE.rep r lo (some hi)

/-- Pattern `r{lo,}`. -/
def ratleast (r : RE) (lo : Nat) : RE := RE.rep r lo Option.none

/-- Class `[0-9]`. -/
def clsDigit : RE := RE.cls isAsciiDigit

/-- Class `[A-Z]` under `re.IGNORECASE`: any ASCII letter. -/
def clsUpperIC : RE := RE.cls isAsciiAlpha

/-- Class `[A-Z0-9]` under `re.IGNORECASE`. -/
def clsAlnumIC : RE := RE.cls (fun c => isAsciiAlpha c || isAsciiDigit c)

/-- Class `[-\s]`. -/
def clsSep : RE := RE.cls isSepChar

/-- Class `[\s]`. -/
def clsSpace : RE := RE.cls isPySpace

/-- Class `[\s:#]`. -/
def clsSpaceColonHash : RE := RE.cls (fun c => isPySpace c || c = ':' || c = '#')

/-- Class `[\s:=]`. -/
def clsSpaceColonEq : RE := RE.cls (fun c => isPySpace c || c = ':' || c = '=')

/-- Class `[\s:]`. -/
def clsSpaceColon : RE := RE.cls (fun c => isPySpace c || c = ':')

/-- Class `\S`. -/
def clsNonSpace : RE := RE.cls (fun c => !(isPySpace c))

/-- Class `[A-Za-z0-9._%+-]`, the local part of the email pattern. -/
def emailLocalChar (c : Char) : Bool :=
  isAsciiAlpha c || isAsciiDigit c || c = '.' || c = '_' || c = '%' || c = '+' || c = '-'

/-- Class `[A-Za-z0-9.-]`. -/
def clsEmailDomain : RE := RE.cls (fun c => isAsciiAlpha c || isAsciiDigit c || c = '.' || c = '-')

/-- Class `[A-Z|a-z]` (the source's class literally includes `'|'`). -/
def clsTld : RE := RE.cls (fun c => isAsciiAlpha c || c = '|')

/-- Class `[0-9\-\s]`. -/
def clsDigitDashSpace : RE := RE.cls (fun c => isAsciiDigit c || c = '-' || isPySpace c)

/-- Class `[/\-]`. -/
def clsSlashDash : RE := RE.cls (fun c => c = '/' || c = '-')

/-- Class `[A-Za-z\s]`. -/
def clsAlphaSpace : RE := RE.cls (fun c => isAsciiAlpha c || isPySpace c)

/-- Class `[0-9a-fA-F]`. -/
def clsHex : RE :=
  RE.cls (fun c => isAsciiDigit c || decide ('a' ≤ c ∧ c ≤ 'f') || decide ('A' ≤ c ∧ c ≤ 'F'))

/-- Class `[-.\s]`. -/
def clsDotDashSpace : RE := RE.cls (fun c => c = '-' || c = '.' || isPySpace c)

/-- Class `[A-Za-z0-9_\-]`. -/
def clsKeyChars : RE := RE.cls (fun c => isAsciiAlpha c || isAsciiDigit c || c = '_' || c = '-')

/-- Class `[A-Za-z0-9_\-\.]`. -/
def clsTokenChars : RE :=
  RE.cls (fun c => isAsciiAlpha c || isAsciiDigit c || c = '_' || c = '-' || c = '.')

/-- Class `[_-]`. -/
def clsUnderscoreDash : RE := RE.cls (fun c => c = '_' || c = '-')

/-- Class `[STFGM]` under `re.IGNORECASE`. -/
def clsSTFGM : RE :=
  RE.cls (fun c => c.toLower = 's' || c.toLower = 't' || c.toLower = 'f' ||
    c.toLower = 'g' || c.toLower = 'm')

/-- Visa pattern. -/
def patVisa : RE := rseq [RE.wordB, RE.chr '4', rexact clsDigit 3, ropt clsSep,
  rexact clsDigit 4, ropt clsSep, rexact clsDigit 4, ropt clsSep, rexact clsDigit 4, RE.wordB]

/-- MasterCard pattern. -/
def patMasterCard : RE := rseq [RE.wordB, RE.chr '5',
  RE.cls (fun c => decide ('1' ≤ c ∧ c ≤ '5')), rexact clsDigit 2, ropt clsSep,
  rexact clsDigit 4, ropt clsSep, rexact clsDigit 4, ropt clsSep, rexact clsDigit 4, RE.wordB]

/-- American Express pattern. -/
def patAmex : RE := rseq [RE.wordB, RE.chr '3', RE.cls (fun c => c = '4' || c = '7'),
  rexact clsDigit 2, ropt clsSep, rexact clsDigit 6, ropt clsSep, rexact clsDigit 5, RE.wordB]

/-- Discover pattern. -/
def patDiscover : RE := rseq [RE.wordB, RE.chr '6',
  RE.alt (rstr "011") (RE.seq (RE.chr '5') (rexact clsDigit 2)), ropt clsSep,
  rexact clsDigit 4, ropt clsSep, rexact clsDigit 4, ropt clsSep, rexact clsDigit 4, RE.wordB]

/-- Generic 16-digit credit-card pattern. -/
def patGenericCC : RE := rseq [RE.wordB, rexact clsDigit 4, ropt clsSep,
  rexact clsDigit 4, ropt clsSep, rexact clsDigit 4, ropt clsSep, rexact clsDigit 4, RE.wordB]

/-- IBAN pattern. -/
def patIBAN : RE := rseq [RE.wordB, rexact clsUpperIC 2, rexact clsDigit 2,
  rexact clsAlnumIC 4, rexact clsDigit 7, rrange (ropt clsAlnumIC) 0 16, RE.wordB]

/-- Bank-account-with-context pattern. -/
def patAccount : RE := rseq [ralt [rstr "account", rstr "acct", rstr "a/c"],
  rstar clsSpaceColonHash, rrange clsDigit 8 17]

/-- Routing-number-with-context pattern. -/
def patRouting : RE := rseq [ralt [rstr "routing", rstr "rtg", rstr "aba"],
  rstar clsSpaceColonHash, rexact clsDigit 9]

/-- SWIFT/BIC pattern. -/
def patSwift : RE := rseq [RE.wordB, rexact clsUpperIC 4, rexact clsUpperIC 2,
  rexact clsAlnumIC 2, ropt (rexact clsAlnumIC 3), RE.wordB]

/-- CVV-with-context pattern. -/
def patCvv : RE := rseq [ralt [rstr "cvv", rstr "cvc", rstr "cvv2", rstr "cvc2",
  rseq [rstr "security", rstar clsSpace, rstr "code"]], rstar clsSpaceColon, rrange clsDigit 3 4]

/-- Dashed US SSN pattern. -/
def patSsn : RE := rseq [RE.wordB, rexact clsDigit 3, clsSep, rexact clsDigit 2,
  clsSep, rexact clsDigit 4, RE.wordB]

/-- SSN-with-context pattern. -/
def patSsnCtx : RE := rseq [ralt [rstr "ssn", rseq [rstr "social", rstar clsSpace, rstr "security"]],
  rstar clsSpaceColonHash, rexact clsDigit 3, ropt clsSep, rexact clsDigit 2, ropt clsSep,
  rexact clsDigit 4]

/-- Singapore NRIC/FIN pattern. -/
def patNric : RE := rseq [RE.wordB, clsSTFGM, rexact clsDigit 7, clsUpperIC, RE.wordB]

/-- Malaysia IC pattern. -/
def patMyIC : RE := rseq [RE.wordB, rexact clsDigit 6, ropt clsSep, rexact clsDigit 2,
  ropt clsSep, rexact clsDigit 4, RE.wordB]

/-- Passport-with-context pattern. -/
def patPassport : RE := rseq [rstr "passport", rstar clsSpaceColonHash,
  rrange clsUpperIC 1 2, rrange clsDigit 6 9]

/-- Driver's-license-with-context pattern. -/
def patDl : RE := rseq [ralt [
    rseq [rstr "driver", ropt (RE.chr '\''), ropt (RE.chr 's'), rstar clsSpace, rstr "license"],
    rstr "dl",
    rseq [rstr "license", rstar clsSpace, ropt (RE.chr '#')]],
  rstar clsSpaceColonHash, rrange clsAlnumIC 5 15]

/-- Password-keyword pattern. -/
def patPassword : RE := rseq [rstr "password", rplus clsSpaceColonEq, rplus clsNonSpace]

/-- Pwd/passwd-keyword pattern. -/
def patPwd : RE := rseq [ralt [rstr "pwd", rstr "passwd"], rplus clsSpaceColonEq,
  rplus clsNonSpace]

/-- Pass-keyword pattern. -/
def patPass : RE := rseq [rstr "pass", rplus clsSpaceColonEq, ratleast clsNonSpace 6]

/-- PIN-with-context pattern. -/
def patPin : RE := rseq [ralt [rstr "pin", rseq [rstr "pin", rstar clsSpace, rstr "code"],
  rseq [rstr "pin", rstar clsSpace, rstr "number"]], rplus clsSpaceColonEq, rrange clsDigit 4 6]

/-- API-key pattern. -/
def patApiKey : RE := rseq [rstr "api", ropt clsUnderscoreDash, rstr "key",
  rplus clsSpaceColonEq, ratleast clsKeyChars 20]

/-- Secret-key pattern. -/
def patSecretKey : RE := rseq [rstr "secret", ropt clsUnderscoreDash, rstr "key",
  rplus clsSpaceColonEq, ratleast clsKeyChars 20]

/-- Access-token pattern. -/
def patAccessToken : RE := rseq [rstr "access", ropt clsUnderscoreDash, rstr "token",
  rplus clsSpaceColonEq, ratleast clsKeyChars 20]

/-- Bearer-token pattern. -/
def patBearer : RE := rseq [rstr "bearer", rplus clsSpace, ratleast clsTokenChars 20]

/-- AWS access-key pattern. -/
def patAkia : RE := rseq [rstr "AKIA", rexact clsAlnumIC 16]

/-- International phone pattern. -/
def patPhoneIntl : RE := rseq [RE.chr '+', RE.cls (fun c => decide ('1' ≤ c ∧ c ≤ '9')),
  rrange clsDigit 0 2, ropt clsSep, rrange clsDigit 8 14]

/-- US phone pattern. -/
def patPhoneUS : RE := rseq [RE.wordB, ropt (RE.chr '('), rexact clsDigit 3,
  ropt (RE.chr ')'), ropt clsDotDashSpace, rexact clsDigit 3, ropt clsDotDashSpace,
  rexact clsDigit 4, RE.wordB]

/-- Phone-with-context pattern. -/
def patPhoneKw : RE := rseq [ralt [rstr "phone", rstr "mobile", rstr "cell", rstr "tel"],
  rstar clsSpaceColonHash, ratleast clsDigitDashSpace 10]

/-- Email pattern. -/
def patEmail : RE := rseq [RE.wordB, rplus (RE.cls emailLocalChar), RE.chr '@',
  rplus clsEmailDomain, RE.chr '.', ratleast clsTld 2, RE.wordB]

/-- Physical-address pattern. -/
def patAddress : RE := rseq [ralt [rstr "address", rstr "street", rstr "avenue",
  rstr "road", rstr "blvd", rstr "lane"], rstar clsSpaceColonHash, rplus clsDigit,
  rplus clsSpace, rplus clsAlphaSpace]

/-- Date-of-birth pattern. -/
def patDob : RE := rseq [ralt [rstr "dob",
    rseq [rstr "date", rstar clsSpace, rstr "of", rstar clsSpace, rstr "birth"],
    rstr "born", rstr "birthday"],
  rplus clsSpaceColon, rrange clsDigit 1 2, clsSlashDash, rrange clsDigit 1 2,
  clsSlashDash, rrange clsDigit 2 4]

/-- Medical-record-number pattern. -/
def patMrn : RE := rseq [ralt [rstr "mrn", rseq [rstr "medical", rstar clsSpace, rstr "record"],
  rseq [rstr "patient", rstar clsSpace, rstr "id"]], rstar clsSpaceColonHash,
  ratleast clsAlnumIC 6]

/-- Health-information-keyword pattern. -/
def patMedKw : RE := rseq [ralt [rstr "diagnosis", rstr "prescription", rstr "medication"],
  rplus clsSpaceColon, rplus clsAlphaSpace]

/-- One IPv4 octet: `25[0-5]|2[0-4][0-9]|[01]?[0-9][0-9]?`. -/
def patOctet : RE := ralt [
  rseq [rstr "25", RE.cls (fun c => decide ('0' ≤ c ∧ c ≤ '5'))],
  rseq [RE.chr '2', RE.cls (fun c => decide ('0' ≤ c ∧ c ≤ '4')), clsDigit],
  rseq [ropt (RE.cls (fun c => c = '0' || c = '1')), clsDigit, ropt clsDigit]]

/-- IPv4 pattern. -/
def patIPv4 : RE := rseq [RE.wordB, rexact (rseq [patOctet, RE.chr '.']) 3, patOctet, RE.wordB]

/-- IPv6 pattern (the source's simplified form). -/
def patIPv6 : RE := rseq [RE.wordB, rexact (rseq [rrange clsHex 1 4, RE.chr ':']) 7,
  rrange clsHex 1 4, RE.wordB]

/-- `DLPDetector._init_patterns` (`self.patterns`), in dict insertion order:
category name, then the ordered list of `(regex, description, sensitivity,
confidence)` tuples. -/
def patternCatalog : List (String × List (RE × String × SensitivityLevel × ℚ)) := [
  ("credit_card", [
    (patVisa, "Visa card", SensitivityLevel.critical, 0.95),
    (patMasterCard, "MasterCard", SensitivityLevel.critical, 0.95),
    (patAmex, "American Express", SensitivityLevel.critical, 0.95),
    (patDiscover, "Discover card", SensitivityLevel.critical, 0.95),
    (patGenericCC, "Credit card number", SensitivityLevel.critical, 0.70)]),
  ("bank_account", [
    (patIBAN, "IBAN", SensitivityLevel.high, 0.95),
    (patAccount, "Bank account number", SensitivityLevel.high, 0.85),
    (patRouting, "Bank routing number", SensitivityLevel.high, 0.90),
    (patSwift, "SWIFT/BIC code", SensitivityLevel.high, 0.80)]),
  ("cvv", [
    (patCvv, "Card security code (CVV)", SensitivityLevel.critical, 0.95)]),
  ("ssn", [
    (patSsn, "Social Security Number", SensitivityLevel.critical, 0.95),
    (patSsnCtx, "SSN", SensitivityLevel.critical, 0.98)]),
  ("nric", [
    (patNric, "Singapore NRIC/FIN", SensitivityLevel.critical, 0.95),
    (patMyIC, "Malaysia IC", SensitivityLevel.critical, 0.80)]),
  ("passport", [
    (patPassport, "Passport number", SensitivityLevel.high, 0.85)]),
  ("drivers_license", [
    (patDl, "Driver's license", SensitivityLevel.high, 0.80)]),
  ("password", [
    (patPassword, "Password", SensitivityLevel.critical, 0.95),
    (patPwd, "Password", SensitivityLevel.critical, 0.90),
    (patPass, "Password", SensitivityLevel.critical, 0.80)]),
  ("pin", [
    (patPin, "PIN code", SensitivityLevel.critical, 0.95)]),
  ("api_key", [
    (patApiKey, "API Key", SensitivityLevel.critical, 0.95),
    (patSecretKey, "Secret Key", SensitivityLevel.critical, 0.95),
    (patAccessToken, "Access Token", SensitivityLevel.critical, 0.95),
    (patBearer, "Bearer Token", SensitivityLevel.critical, 0.90),
    (patAkia, "AWS Access Key", SensitivityLevel.critical, 0.98)]),
  ("phone", [
    (patPhoneIntl, "Phone number (international)", SensitivityLevel.medium, 0.85),
    (patPhoneUS, "Phone number (US)", SensitivityLevel.medium, 0.80),
    (patPhoneKw, "Phone number", SensitivityLevel.medium, 0.85)]),
  ("email", [
    (patEmail, "Email address", SensitivityLevel.low, 0.95)]),
  ("address", [
    (patAddress, "Physical address", SensitivityLevel.medium, 0.70)]),
  ("dob", [
    (patDob, "Date of birth", SensitivityLevel.medium, 0.90)]),
  ("medical", [
    (patMrn, "Medical record number", SensitivityLevel.high, 0.90),
    (patMedKw, "Health information", SensitivityLevel.high, 0.70)]),
  ("ip_address", [
    (patIPv4, "IP Address (IPv4)", SensitivityLevel.medium, 0.90),
    (patIPv6, "IP Address (IPv6)", SensitivityLevel.medium, 0.90)])]

/-- Substring `t[s:e]`. -/
def subText (t : List Char) (s e : Nat) : List Char := (t.drop s).take (e - s)

/-- The hits of one catalog pattern, in `re.finditer` order. Python's
`confidence` is the tuple-unpacked loop variable of line 275, shared by all
matches of the pattern: the `confidence *= 0.5` of line 281 mutates it and
the mutation persists into the later matches of the same pattern. Each hit
carries the variable's value as this match begins; `validateHit` performs
the halving for the hit itself, and the next hit starts from the halved
value whenever this one was a failed-Luhn credit-card match. -/
def patternHitsGo (category description : String) (sensitivity : SensitivityLevel)
    (text : List Char) : List (Nat × Nat) → ℚ → List RawHit
  | [], _ => []
  | sp :: sps, conf =>
    { category := category
      description := description
      matched_text := subText text sp.1 sp.2
      sensitivity := sensitivity
      confidence := conf
      start_pos := sp.1
      end_pos := sp.2 } ::
    patternHitsGo category description sensitivity text sps
      (if category = "credit_card" ∧ validate_luhn (subText text sp.1 sp.2) = false
       then conf * (1/2) else conf)

/-- Scanning loop of `analyze` (lines 274-277): every pattern of every
category, `re.finditer` over the text, in catalog order, threading the
per-pattern confidence variable from the pattern's base value. -/
def scan (text : List Char) : List RawHit :=
  patternCatalog.flatMap (fun entry =>
    entry.2.flatMap (fun pat =>
      patternHitsGo entry.1 pat.2.1 pat.2.2.1 text (finditer pat.1 text) pat.2.2.2))

/-- `DLPDetector.analyze`. -/
def analyze (text : List Char) : Option ScanReport := analyzeHits (scan text)

/-- Concrete credit-card hit failing Luhn, for the C3 witness. -/
def c3HitFail : RawHit :=
  { category := "credit_card", description := "Visa card",
    matched_text := "4532015112830367".toList, sensitivity := SensitivityLevel.critical,
    confidence := 0.95, start_pos := 18, end_pos := 34 }

/-- Concrete non-credit-card hit, for the C3 witness. -/
def c3HitOther : RawHit :=
  { category := "email", description := "Email address",
    matched_text := "a@b.co".toList, sensitivity := SensitivityLevel.low,
    confidence := 0.95, start_pos := 0, end_pos := 6 }

/-- Empty report used as a `getD` default inside witnesses. -/
def noReport : ScanReport :=
  { has_sensitive_data := false, sensitivity_level := "", total_matches := 0,
    categories := [], «matches» := [], recommendation := "" }

/-- Lower-confidence record at span (18, 34), for the C4 witness. -/
def c4Low : MatchRecord :=
  { category := "credit_card", description := "Credit card number",
    matched_text := "4532015112830366".toList, masked_text := "****-****-****-0366".toList,
    sensitivity := "critical", confidence := 0.7, start_pos := 18, end_pos := 34 }

/-- Higher-confidence record at the same span (18, 34), for the C4 witness. -/
def c4High : MatchRecord :=
  { category := "credit_card", description := "Visa card",
    matched_text := "4532015112830366".toList, masked_text := "****-****-****-0366".toList,
    sensitivity := "critical", confidence := 0.95, start_pos := 18, end_pos := 34 }

/-- The ordering contract exactly as claim C6 states it: descending
confidence with ties broken by ascending start offset. -/
def claimC6Ordered : List MatchRecord → Bool
  | [] => true
  | [_] => true
  | a :: b :: rest =>
    ((b.confidence < a.confidence) || (a.confidence = b.confidence && a.start_pos ≤ b.start_pos))
      && claimC6Ordered (b :: rest)

/-- The email Match record of the report for "a@b.co", for the C1 witness. -/
def c1Rec : MatchRecord :=
  { category := "email", description := "Email address",
    matched_text := "a@b.co".toList, masked_text := "a***@b.co".toList,
    sensitivity := "low", confidence := 0.95, start_pos := 0, end_pos := 6 }

/-- The Visa Match record of the report for "4111111111111111", for the C10
witness. -/
def c10Rec : MatchRecord :=
  { category := "credit_card", description := "Visa card",
    matched_text := "4111111111111111".toList, masked_text := "****-****-****-1111".toList,
    sensitivity := "critical", confidence := 0.95, start_pos := 0, end_pos := 16 }

/-- The failed-Luhn Visa hit that scanning "4532015112830367" produces, for
the C10 witness. -/
def c10Hit : RawHit :=
  { category := "credit_card", description := "Visa card",
    matched_text := "4532015112830367".toList, sensitivity := SensitivityLevel.critical,
    confidence := 0.95, start_pos := 0, end_pos := 16 }

/-- The Luhn checksum as the specification words it: walk the reversed digit
sequence pairwise, adding each odd-position (from the right, 0-based) digit
doubled with 9 subtracted when the doubled value exceeds 9. -/
def luhnSpecSum : List Nat → Nat
  | [] => 0
  | [d] => d
  | d1 :: d2 :: rest => d1 + (if 9 < d2 * 2 then d2 * 2 - 9 else d2 * 2) + luhnSpecSum rest

/-- Index-threaded form of the Luhn sum, matching the code's `enumerate`. -/
def luhnSpecFrom : Nat → List Nat → Nat
  | _, [] => 0
  | i, d :: rest => luhnTerm i d + luhnSpecFrom (i + 1) rest

theorem enumFrom_luhn (l : List Char) :
    ∀ n, ((List.enumFrom n l).map (fun p => luhnTerm p.1 (charDigitVal p.2))).sum =
      luhnSpecFrom n (l.map charDigitVal) := by
  induction l with
  | nil => intro n; simp [List.enumFrom, luhnSpecFrom]
  | cons c rest ih => intro n; simp [List.enumFrom, luhnSpecFrom, ih]

theorem luhnSpecFrom_even :
    ∀ (ds : List Nat) (i : Nat), i % 2 = 0 → luhnSpecFrom i ds = luhnSpecSum ds
  | [], _, _ => rfl
  | [d], i, h => by
    have h1 : ¬ i % 2 = 1 := by omega
    simp [luhnSpecFrom, luhnSpecSum, luhnTerm, h1]
  | d1 :: d2 :: rest, i, h => by
    have h1 : ¬ i % 2 = 1 := by omega
    have h2 : (i + 1) % 2 = 1 := by omega
    have h3 : (i + 1 + 1) % 2 = 0 := by omega
    have ih := luhnSpecFrom_even rest (i + 1 + 1) h3
    simp [luhnSpecFrom, luhnSpecSum, luhnTerm, h1, h2, ih]
    omega

/-- C2: the Luhn validator strips separators, fails when the residue is not
all digits or shorter than 13 digits, and otherwise succeeds exactly when the
sum over the reversed digit sequence, doubling every second digit from the
right and subtracting 9 when the doubled value exceeds 9, is a multiple of
10; in particular "4532015112830366" passes and "4532015112830367" fails. -/
theorem C2_luhn_validator :
    validate_luhn "4532015112830366".toList = true ∧
    validate_luhn "4532015112830367".toList = false ∧
    ∀ s : List Char,
      validate_luhn s = true ↔
        ((s.filter (fun c => !(isSepChar c))).all isAsciiDigit = true ∧
         s.filter (fun c => !(isSepChar c)) ≠ [] ∧
         13 ≤ (s.filter (fun c => !(isSepChar c))).length ∧
         luhnSpecSum (((s.filter (fun c => !(isSepChar c))).reverse).map charDigitVal) % 10 = 0) := by
  refine ⟨by decide, by decide, fun s => ?_⟩
  unfold validate_luhn
  set digits := s.filter (fun c => !(isSepChar c)) with hdig
  by_cases hc : (!(pyIsDigit digits) || decide (digits.length < 13)) = true
  · rw [if_pos hc]
    simp only [Bool.or_eq_true, Bool.not_eq_true', decide_eq_true_eq, pyIsDigit,
      Bool.and_eq_false_iff, Bool.not_eq_false', List.isEmpty_iff] at hc
    constructor
    · intro h; exact absurd h (by simp)
    · rintro ⟨hall, hne, hlen, _⟩
      rcases hc with h | h
      · rcases h with h | h
        · exact absurd h hne
        · rw [hall] at h; exact absurd h (by simp)
      · omega
  · rw [if_neg hc]
    simp only [Bool.or_eq_true, Bool.not_eq_true', decide_eq_true_eq, pyIsDigit,
      Bool.and_eq_false_iff, Bool.not_eq_false', List.isEmpty_iff, not_or, not_lt] at hc
    obtain ⟨⟨hne, hall⟩, hlen⟩ := hc
    rw [Bool.not_eq_false] at hall
    have hsum : ((digits.reverse.enum).map (fun p => luhnTerm p.1 (charDigitVal p.2))).sum =
        luhnSpecSum (digits.reverse.map charDigitVal) := by
      rw [List.enum, enumFrom_luhn, luhnSpecFrom_even _ 0 rfl]
    rw [hsum]
    simp [hall, hne, hlen]

/-- C3: a credit-card candidate that fails Luhn has its confidence halved and
is discarded exactly when the result drops below 0.5; candidates of any other
category pass through the validation stage unchanged. -/
theorem C3_validation_stage (h : RawHit) :
    (h.category = "credit_card" → validate_luhn h.matched_text = false →
      (validateHit h = Option.none ↔ h.confidence * 0.5 < 0.5) ∧
      (¬ h.confidence * 0.5 < 0.5 →
        validateHit h = some { h with confidence := h.confidence * 0.5 })) ∧
    (h.category ≠ "credit_card" → validateHit h = some h) := by
  constructor
  · intro hcat hluhn
    have hg : h.category = "credit_card" ∧ validate_luhn h.matched_text = false := ⟨hcat, hluhn⟩
    have h05 : (0.5 : ℚ) = 1/2 := by norm_num
    constructor
    · rw [validateHit, if_pos hg, h05]
      by_cases hlt : h.confidence * (1/2) < 1/2
      · simp [hlt]
      · simp [hlt]
    · intro hge
      rw [h05] at hge
      rw [validateHit, if_pos hg, if_neg hge, h05]
  · intro hcat
    rw [validateHit, if_neg (fun hg => hcat hg.1)]



/-- Witness for C3 at concrete inputs. -/
theorem C3_validation_stage_witness :
    validateHit c3HitFail = Option.none ∧ validateHit c3HitOther = some c3HitOther := by
  constructor
  · exact ((C3_validation_stage c3HitFail).1 rfl (by decide)).1.mpr (by norm_num [c3HitFail])
  · exact (C3_validation_stage c3HitOther).2 (by decide)

/-- C8: the category masking policies on the specified inputs: credit card
keeps only the last four digits, email keeps the first local character and
the domain, a fully-secret category masks to at most 12 stars, and the
generic fallback turns any text of length at most 4 into the same number of
stars. -/
theorem C8_masking_policies :
    mask_text "4532-0151-1283-0366".toList "credit_card" = some "****-****-****-0366".toList ∧
    mask_text "john@example.com".toList "email" = some "j***@example.com".toList ∧
    (∃ n, n ≤ 12 ∧
      mask_text "password: secretPass123".toList "password" = some (List.replicate n '*')) ∧
    (∀ (t : List Char) (category : String),
      category ∉ ["credit_card", "phone", "ssn", "email", "password", "pin", "api_key", "cvv"] →
      t.length ≤ 4 → mask_text t category = some (List.replicate t.length '*')) := by
  refine ⟨by decide, by decide, ⟨12, by norm_num, by decide⟩, ?_⟩
  intro t category hcat hlen
  simp only [List.mem_cons, List.not_mem_nil, or_false, not_or] at hcat
  obtain ⟨h1, h2, h3, h4, h5, h6, h7, h8⟩ := hcat
  rw [mask_text]
  rw [if_neg h1, if_neg h2, if_neg h3, if_neg h4,
    if_neg (by rintro (h | h | h | h) <;> [exact h5 h; exact h6 h; exact h7 h; exact h8 h])]
  rw [genericMask, if_neg (by omega)]

/-- Witness for the generic-fallback clause of C8 at a concrete input. -/
theorem C8_masking_policies_witness :
    mask_text "abc".toList "nric" = some (List.replicate 3 '*') := by
  have := C8_masking_policies.2.2.2 "abc".toList "nric" (by decide) (by decide)
  simpa using this

/-- C7: end-to-end analysis of "My credit card is 4532015112830366" reports
sensitive data, the credit_card category, and CRITICAL overall sensitivity. -/
theorem C7_end_to_end :
    ((analyze "My credit card is 4532015112830366".toList).map
      (fun r => (r.has_sensitive_data, decide ("credit_card" ∈ r.categories), r.sensitivity_level)))
      = some (true, true, SensitivityLevel.critical.value) := by
  with_unfolding_all decide

theorem dedupLoop_sublist : ∀ (l : List MatchRecord) (seen : List (Nat × Nat)),
    List.Sublist (dedupLoop l seen) l
  | [], _ => List.Sublist.refl _
  | m :: ms, seen => by
    rw [dedupLoop]
    by_cases hm : (m.start_pos, m.end_pos) ∈ seen
    · rw [if_pos hm]; exact (dedupLoop_sublist ms seen).cons m
    · rw [if_neg hm]; exact (dedupLoop_sublist ms _).cons₂ m

theorem mem_dedupLoop_not_seen : ∀ (l : List MatchRecord) (seen : List (Nat × Nat))
    (m : MatchRecord), m ∈ dedupLoop l seen → (m.start_pos, m.end_pos) ∉ seen
  | [], _, m, h => by simp [dedupLoop] at h
  | x :: xs, seen, m, h => by
    rw [dedupLoop] at h
    by_cases hx : (x.start_pos, x.end_pos) ∈ seen
    · rw [if_pos hx] at h
      exact mem_dedupLoop_not_seen xs seen m h
    · rw [if_neg hx] at h
      rcases List.mem_cons.mp h with rfl | h2
      · exact hx
      · intro hc
        exact mem_dedupLoop_not_seen xs _ m h2 (List.mem_cons_of_mem _ hc)

theorem dedupLoop_pairwise : ∀ (l : List MatchRecord) (seen : List (Nat × Nat)),
    List.Pairwise (fun a b => (a.start_pos, a.end_pos) ≠ (b.start_pos, b.end_pos))
      (dedupLoop l seen)
  | [], _ => by simp [dedupLoop]
  | x :: xs, seen => by
    rw [dedupLoop]
    by_cases hx : (x.start_pos, x.end_pos) ∈ seen
    · rw [if_pos hx]; exact dedupLoop_pairwise xs seen
    · rw [if_neg hx]
      refine List.Pairwise.cons ?_ (dedupLoop_pairwise xs _)
      intro b hb heq
      apply mem_dedupLoop_not_seen xs _ b hb
      rw [← heq]
      exact List.mem_cons_self _ _

theorem dedupLoop_maxconf : ∀ (l : List MatchRecord) (seen : List (Nat × Nat)),
    List.Sorted confGe l → ∀ m ∈ dedupLoop l seen, ∀ m2 ∈ l,
      (m2.start_pos, m2.end_pos) = (m.start_pos, m.end_pos) → m2.confidence ≤ m.confidence
  | [], _, _, m, hm => by simp [dedupLoop] at hm
  | x :: xs, seen, hs, m, hm => by
    rw [dedupLoop] at hm
    rw [List.sorted_cons] at hs
    obtain ⟨hx_all, hs_tail⟩ := hs
    by_cases hx : (x.start_pos, x.end_pos) ∈ seen
    · rw [if_pos hx] at hm
      intro m2 hm2 hspan
      rcases List.mem_cons.mp hm2 with rfl | h2
      · exfalso
        have hnot := mem_dedupLoop_not_seen xs seen m hm
        rw [← hspan] at hnot
        exact hnot hx
      · exact dedupLoop_maxconf xs seen hs_tail m hm m2 h2 hspan
    · rw [if_neg hx] at hm
      rcases List.mem_cons.mp hm with rfl | hm2'
      · intro m2 hm2 hspan
        rcases List.mem_cons.mp hm2 with rfl | h2
        · exact le_refl _
        · simpa [confGe] using hx_all m2 h2
      · intro m2 hm2 hspan
        rcases List.mem_cons.mp hm2 with rfl | h2
        · exfalso
          have hnot := mem_dedupLoop_not_seen xs _ m hm2'
          rw [← hspan] at hnot
          exact hnot (List.mem_cons_self _ _)
        · exact dedupLoop_maxconf xs _ hs_tail m hm2' m2 h2 hspan

theorem dedupLoop_eq_self : ∀ (l : List MatchRecord) (seen : List (Nat × Nat)),
    (∀ m ∈ l, (m.start_pos, m.end_pos) ∉ seen) →
    List.Pairwise (fun a b => (a.start_pos, a.end_pos) ≠ (b.start_pos, b.end_pos)) l →
    dedupLoop l seen = l
  | [], _, _, _ => rfl
  | x :: xs, seen, hno, hpw => by
    rw [dedupLoop, if_neg (hno x (List.mem_cons_self _ _))]
    rw [List.pairwise_cons] at hpw
    congr 1
    refine dedupLoop_eq_self xs _ ?_ hpw.2
    intro m hm hc
    rcases List.mem_cons.mp hc with heq | hc2
    · exact hpw.1 m hm heq.symm
    · exact hno m (List.mem_cons_of_mem _ hm) hc2

theorem sorted_sortByConfDesc (l : List MatchRecord) : List.Sorted confGe (sortByConfDesc l) :=
  List.sorted_insertionSort confGe l

theorem sorted_deduplicate (l : List MatchRecord) :
    List.Sorted confGe (deduplicate_matches l) :=
  (sorted_sortByConfDesc l).sublist (dedupLoop_sublist (sortByConfDesc l) [])

theorem mem_deduplicate {m : MatchRecord} {l : List MatchRecord}
    (hm : m ∈ deduplicate_matches l) : m ∈ l :=
  (List.perm_insertionSort confGe l).subset ((dedupLoop_sublist _ []).subset hm)

/-- C4: the deduplicated sequence has pairwise-distinct spans, each kept
record has maximal confidence among the input records at its exact span, and
deduplication is idempotent; in particular no two matches of any report share
a span. -/
theorem C4_deduplication :
    (∀ l : List MatchRecord,
      List.Pairwise (fun a b => (a.start_pos, a.end_pos) ≠ (b.start_pos, b.end_pos))
        (deduplicate_matches l) ∧
      (∀ m ∈ deduplicate_matches l, ∀ m2 ∈ l,
        (m2.start_pos, m2.end_pos) = (m.start_pos, m.end_pos) → m2.confidence ≤ m.confidence) ∧
      deduplicate_matches (deduplicate_matches l) = deduplicate_matches l) ∧
    (∀ (text : List Char) (r : ScanReport), analyze text = some r →
      List.Pairwise (fun a b => (a.start_pos, a.end_pos) ≠ (b.start_pos, b.end_pos))
        r.«matches») := by
  have key : ∀ l : List MatchRecord,
      List.Pairwise (fun a b => (a.start_pos, a.end_pos) ≠ (b.start_pos, b.end_pos))
        (deduplicate_matches l) := fun l => dedupLoop_pairwise (sortByConfDesc l) []
  refine ⟨fun l => ⟨key l, ?_, ?_⟩, ?_⟩
  · intro m hm m2 hm2 hspan
    exact dedupLoop_maxconf (sortByConfDesc l) [] (sorted_sortByConfDesc l) m hm m2
      ((List.perm_insertionSort confGe l).mem_iff.mpr hm2) hspan
  · show deduplicate_matches (deduplicate_matches l) = deduplicate_matches l
    rw [deduplicate_matches, sortByConfDesc,
      List.Sorted.insertionSort_eq (sorted_deduplicate l)]
    exact dedupLoop_eq_self _ [] (fun m _ h => (List.not_mem_nil _ h)) (key l)
  · intro text r hr
    rw [analyze, analyzeHits] at hr
    cases hcr : collectRecords (scan text) with
    | none => rw [hcr] at hr; exact absurd hr (by simp)
    | some ms =>
      rw [hcr] at hr
      have : r.«matches» = deduplicate_matches ms := by
        cases hr
        rfl
      rw [this]
      exact key ms




/-- Witness for C4 at concrete inputs. -/
theorem C4_deduplication_witness :
    c4Low.confidence ≤ c4High.confidence ∧
    List.Pairwise (fun a b => (a.start_pos, a.end_pos) ≠ (b.start_pos, b.end_pos))
      (((analyze "a@b.co".toList).getD noReport).«matches») :=
  ⟨(C4_deduplication.1 [c4Low, c4High]).2.1 c4High (by with_unfolding_all decide) c4Low
      (by with_unfolding_all decide) (by with_unfolding_all decide),
    C4_deduplication.2 "a@b.co".toList ((analyze "a@b.co".toList).getD noReport)
      (by with_unfolding_all decide)⟩

theorem analyze_elim (text : List Char) (r : ScanReport) (h : analyze text = some r) :
    ∃ ms, collectRecords (scan text) = some ms ∧ r.«matches» = deduplicate_matches ms := by
  rw [analyze, analyzeHits] at h
  cases hcr : collectRecords (scan text) with
  | none => rw [hcr] at h; exact absurd h (by simp)
  | some ms =>
    rw [hcr] at h
    refine ⟨ms, rfl, ?_⟩
    cases h
    rfl

/-- C6 (amended): the matches of every report are ordered by weakly
descending confidence; equal-confidence ties keep the scanning loop's
generation order (catalog order, then position), not ascending start offset. -/
theorem C6_order_desc_confidence (text : List Char) (r : ScanReport)
    (h : analyze text = some r) : List.Sorted confGe r.«matches» := by
  obtain ⟨ms, _, hmm⟩ := analyze_elim text r h
  rw [hmm]
  exact sorted_deduplicate ms


/-- Counterexample to C6 as stated: on "a@b.co 123-45-6789" the report holds
two matches of equal confidence 0.95 with the SSN match (start 7) placed
before the email match (start 0), because the stable sort keeps catalog
order on ties rather than ascending start offset. -/
theorem C6_counterexample :
    ((analyze "a@b.co 123-45-6789".toList).map (fun r => claimC6Ordered r.«matches»)) =
      some false := by
  with_unfolding_all decide

/-- Witness for the amended C6 at a concrete input. -/
theorem C6_order_desc_confidence_witness :
    List.Sorted confGe (((analyze "a@b.co 123-45-6789".toList).getD noReport).«matches») :=
  C6_order_desc_confidence "a@b.co 123-45-6789".toList
    ((analyze "a@b.co 123-45-6789".toList).getD noReport) (by with_unfolding_all decide)

theorem mem_collectRecords : ∀ (hits : List RawHit) (ms : List MatchRecord),
    collectRecords hits = some ms → ∀ m ∈ ms,
      ∃ h v mk, h ∈ hits ∧ validateHit h = some v ∧
        mask_text v.matched_text v.category = some mk ∧ m = mkRecord v mk
  | [], ms, hcr, m, hm => by
    rw [collectRecords] at hcr
    injection hcr with h2
    subst h2
    simp at hm
  | h :: hs, ms, hcr, m, hm => by
    rw [collectRecords] at hcr
    cases hv : validateHit h with
    | none =>
      rw [hv] at hcr
      dsimp only at hcr
      obtain ⟨h2, v2, mk2, hmem, hv2, hmk2, hmr⟩ := mem_collectRecords hs ms hcr m hm
      exact ⟨h2, v2, mk2, List.mem_cons_of_mem _ hmem, hv2, hmk2, hmr⟩
    | some v =>
      rw [hv] at hcr
      dsimp only at hcr
      cases hmk : mask_text v.matched_text v.category with
      | none => rw [hmk] at hcr; dsimp only at hcr; exact absurd hcr (by simp)
      | some mk =>
        rw [hmk] at hcr
        dsimp only at hcr
        cases hrec : collectRecords hs with
        | none => rw [hrec] at hcr; dsimp only at hcr; exact absurd hcr (by simp)
        | some rs =>
          rw [hrec] at hcr
          dsimp only at hcr
          injection hcr with h2
          subst h2
          rcases List.mem_cons.mp hm with rfl | hm2
          · exact ⟨h, v, mk, List.mem_cons_self _ _, hv, hmk, rfl⟩
          · obtain ⟨h2, v2, mk2, hmem, hv2, hmk2, hmr⟩ := mem_collectRecords hs rs hrec m hm2
            exact ⟨h2, v2, mk2, List.mem_cons_of_mem _ hmem, hv2, hmk2, hmr⟩

/-- C1 (amended): every Match record carries the Masker's rendering of its
raw text in masked_text, but the raw matched substring itself is retained in
the record's matched_text field, so raw text does appear in the report. -/
theorem C1_masked_consistent_raw_retained (text : List Char) (r : ScanReport)
    (h : analyze text = some r) :
    ∀ m ∈ r.«matches», mask_text m.matched_text m.category = some m.masked_text := by
  intro m hm
  obtain ⟨ms, hcr, hmm⟩ := analyze_elim text r h
  rw [hmm] at hm
  obtain ⟨h2, v, mk, _, _, hmk, rfl⟩ :=
    mem_collectRecords (scan text) ms hcr m (mem_deduplicate hm)
  simpa [mkRecord] using hmk

/-- Counterexample to C1 as stated: the report for the credit-card input
contains a Match record whose matched_text field is exactly the raw matched
substring "4532015112830366". -/
theorem C1_counterexample :
    ((analyze "My credit card is 4532015112830366".toList).map
      (fun r => r.«matches».any (fun m => decide (m.matched_text = "4532015112830366".toList))))
      = some true := by
  with_unfolding_all decide


/-- Witness for the amended C1 at a concrete input. -/
theorem C1_masked_consistent_witness :
    mask_text c1Rec.matched_text c1Rec.category = some c1Rec.masked_text :=
  C1_masked_consistent_raw_retained "a@b.co".toList ((analyze "a@b.co".toList).getD noReport)
    (by with_unfolding_all decide) c1Rec (by with_unfolding_all decide)

theorem splitOnChar_ne_nil (sep : Char) : ∀ l, splitOnChar sep l ≠ []
  | [] => by simp [splitOnChar]
  | c :: rest => by
    rw [splitOnChar]
    by_cases h : c = sep
    · rw [if_pos h]; simp
    · rw [if_neg h]
      cases hs : splitOnChar sep rest with
      | nil => simp
      | cons g gs => simp

theorem mask_text_isSome_of_ne_email (t : List Char) (cat : String) (hne : cat ≠ "email") :
    (mask_text t cat).isSome := by
  rw [mask_text]
  by_cases h1 : cat = "credit_card"
  · rw [if_pos h1]; rfl
  · rw [if_neg h1]
    by_cases h2 : cat = "phone"
    · rw [if_pos h2]; rfl
    · rw [if_neg h2]
      by_cases h3 : cat = "ssn"
      · rw [if_pos h3]; rfl
      · rw [if_neg h3, if_neg hne]
        by_cases h5 : cat = "password" ∨ cat = "pin" ∨ cat = "api_key" ∨ cat = "cvv"
        · rw [if_pos h5]; rfl
        · rw [if_neg h5]; rfl

theorem mask_text_isSome_email (t : List Char)
    (hhead : ∀ c rest, t = c :: rest → c ≠ '@') : (mask_text t "email").isSome := by
  rw [mask_text]
  rw [if_neg (by decide), if_neg (by decide), if_neg (by decide), if_pos rfl]
  cases t with
  | nil => simp [splitOnChar]
  | cons c rest =>
    have hc : c ≠ '@' := hhead c rest rfl
    rw [splitOnChar, if_neg hc]
    cases hs : splitOnChar '@' rest with
    | nil => exact absurd hs (splitOnChar_ne_nil '@' rest)
    | cons g gs =>
      cases gs with
      | nil => simp
      | cons g2 gs2 =>
        cases gs2 with
        | nil => simp
        | cons g3 gs3 => simp

theorem matchRE_cls_first (f : Nat) (pr : Char → Bool) (t : List Char) (p : Nat)
    (k : Nat → Option Nat) (e : Nat) (h : matchRE f (RE.cls pr) t p k = some e) :
    ∃ c, t.get? p = some c ∧ pr c = true := by
  match f with
  | 0 => simp [matchRE] at h
  | f1 + 1 =>
    rw [matchRE] at h
    cases hg : t.get? p with
    | none => rw [hg] at h; simp at h
    | some c =>
      rw [hg] at h
      dsimp only at h
      by_cases hpr : pr c
      · exact ⟨c, rfl, hpr⟩
      · rw [if_neg hpr] at h; simp at h

theorem matchRE_repCls1_first (f : Nat) (pr : Char → Bool) (t : List Char) (p : Nat)
    (k : Nat → Option Nat) (e : Nat)
    (h : matchRE f (RE.rep (RE.cls pr) 1 Option.none) t p k = some e) :
    ∃ c, t.get? p = some c ∧ pr c = true := by
  match f with
  | 0 => simp [matchRE] at h
  | f1 + 1 =>
    simp only [matchRE] at h
    exact matchRE_cls_first f1 pr t p _ e h

theorem matchAt_email_head (t : List Char) (p e : Nat)
    (h : matchAt patEmail t p = some e) :
    ∃ c, t.get? p = some c ∧ emailLocalChar c = true := by
  rw [matchAt] at h
  have hpe : patEmail = RE.seq RE.wordB (RE.seq (RE.rep (RE.cls emailLocalChar) 1 Option.none)
      (rseq [RE.chr '@', rplus clsEmailDomain, RE.chr '.', ratleast clsTld 2, RE.wordB])) := rfl
  rw [hpe] at h
  obtain ⟨f0, hf0⟩ : ∃ f0, reFuel t = f0 + 2 := ⟨5 * t.length + 598, by rw [reFuel]⟩
  rw [hf0] at h
  rw [matchRE] at h
  rw [matchRE] at h
  by_cases hb : isBoundary t p
  · rw [if_pos hb] at h
    rw [matchRE] at h
    exact matchRE_repCls1_first f0 emailLocalChar t p _ e h
  · rw [if_neg hb] at h
    simp at h

theorem mem_finditerAux : ∀ (fu : Nat) (r : RE) (t : List Char) (p0 : Nat) (sp : Nat × Nat),
    sp ∈ finditerAux r t fu p0 → matchAt r t sp.1 = some sp.2
  | 0, r, t, p0, sp, h => by simp [finditerAux] at h
  | fu + 1, r, t, p0, sp, h => by
    rw [finditerAux] at h
    by_cases hp : t.length < p0
    · rw [if_pos hp] at h; simp at h
    · rw [if_neg hp] at h
      cases hm : matchAt r t p0 with
      | none => rw [hm] at h; exact mem_finditerAux fu r t _ sp h
      | some e =>
        rw [hm] at h
        rcases List.mem_cons.mp h with rfl | h2
        · simpa using hm
        · by_cases hpe : p0 < e
          · rw [if_pos hpe] at h2; exact mem_finditerAux fu r t _ sp h2
          · rw [if_neg hpe] at h2; exact mem_finditerAux fu r t _ sp h2

theorem mem_finditer (r : RE) (t : List Char) (sp : Nat × Nat) (h : sp ∈ finditer r t) :
    matchAt r t sp.1 = some sp.2 :=
  mem_finditerAux (t.length + 2) r t 0 sp h

theorem mem_scan_elim (text : List Char) (h : RawHit) (hm : h ∈ scan text) :
    ∃ entry, entry ∈ patternCatalog ∧ ∃ pat, pat ∈ entry.2 ∧
      h ∈ patternHitsGo entry.1 pat.2.1 pat.2.2.1 text (finditer pat.1 text) pat.2.2.2 := by
  rw [scan] at hm
  obtain ⟨entry, hentry, hm2⟩ := List.mem_flatMap.mp hm
  obtain ⟨pat, hpat, hm3⟩ := List.mem_flatMap.mp hm2
  exact ⟨entry, hentry, pat, hpat, hm3⟩

theorem mem_patternHitsGo : ∀ (sps : List (Nat × Nat)) (conf : ℚ) (cat desc : String)
    (sens : SensitivityLevel) (text : List Char) (h : RawHit),
    h ∈ patternHitsGo cat desc sens text sps conf →
    ∃ sp, sp ∈ sps ∧ ∃ c, h =
      { category := cat, description := desc, matched_text := subText text sp.1 sp.2,
        sensitivity := sens, confidence := c, start_pos := sp.1, end_pos := sp.2 }
  | [], conf, cat, desc, sens, text, h, hm => by simp [patternHitsGo] at hm
  | sp :: sps, conf, cat, desc, sens, text, h, hm => by
    rw [patternHitsGo] at hm
    rcases List.mem_cons.mp hm with rfl | hm2
    · exact ⟨sp, List.mem_cons_self _ _, conf, rfl⟩
    · obtain ⟨sp2, hsp2, c, hc⟩ := mem_patternHitsGo sps _ cat desc sens text h hm2
      exact ⟨sp2, List.mem_cons_of_mem _ hsp2, c, hc⟩

theorem mem_scan (text : List Char) (h : RawHit) (hm : h ∈ scan text) :
    ∃ entry, entry ∈ patternCatalog ∧ ∃ pat, pat ∈ entry.2 ∧ ∃ sp, sp ∈ finditer pat.1 text ∧
      ∃ c, h =
        { category := entry.1, description := pat.2.1,
          matched_text := subText text sp.1 sp.2, sensitivity := pat.2.2.1,
          confidence := c, start_pos := sp.1, end_pos := sp.2 } := by
  obtain ⟨entry, hentry, pat, hpat, hgo⟩ := mem_scan_elim text h hm
  obtain ⟨sp, hsp, c, hc⟩ := mem_patternHitsGo _ _ _ _ _ _ _ hgo
  exact ⟨entry, hentry, pat, hpat, sp, hsp, c, hc⟩

theorem take_cons_head : ∀ (n : Nat) (l : List Char) (c : Char) (rest : List Char),
    List.take n l = c :: rest → l.head? = some c
  | 0, _, _, _, h => by simp at h
  | n + 1, [], _, _, h => by simp at h
  | n + 1, x :: xs, c, rest, h => by
    rw [List.take_succ_cons] at h
    injection h with h1 _
    rw [h1]
    rfl

theorem scan_email_mask_some (text : List Char) (h : RawHit) (hmem : h ∈ scan text)
    (hcat : h.category = "email") : (mask_text h.matched_text h.category).isSome := by
  obtain ⟨entry, hentry, pat, hpat, sp, hsp, c, rfl⟩ := mem_scan text h hmem
  dsimp only at hcat ⊢
  rw [hcat]
  simp only [patternCatalog, List.mem_cons, List.not_mem_nil, or_false] at hentry
  rcases hentry with rfl | rfl | rfl | rfl | rfl | rfl | rfl | rfl | rfl | rfl | rfl | rfl |
      rfl | rfl | rfl | rfl <;>
    dsimp only at hcat hpat hsp <;>
    try exact absurd hcat (by decide)
  simp only [List.mem_cons, List.not_mem_nil, or_false] at hpat
  subst hpat
  dsimp only at hsp
  have hma := mem_finditer patEmail text sp hsp
  obtain ⟨c0, hget, hcls⟩ := matchAt_email_head text sp.1 sp.2 hma
  apply mask_text_isSome_email
  intro c rest heq hceq
  rw [subText] at heq
  have hh : (text.drop sp.1).head? = some c := take_cons_head _ _ _ _ heq
  rw [List.head?_drop, ← List.get?_eq_getElem?] at hh
  rw [hget] at hh
  injection hh with hh2
  rw [hh2, hceq] at hcls
  exact absurd hcls (by decide)

theorem validateHit_some (h v : RawHit) (hv : validateHit h = some v) :
    v.category = h.category ∧ v.matched_text = h.matched_text ∧
      ((¬ (h.category = "credit_card" ∧ validate_luhn h.matched_text = false)) ∧ v = h ∨
        h.category = "credit_card" ∧ validate_luhn h.matched_text = false ∧
          ¬ h.confidence * (1/2) < 1/2 ∧ v.confidence = h.confidence * (1/2)) := by
  rw [validateHit] at hv
  by_cases hg : h.category = "credit_card" ∧ validate_luhn h.matched_text = false
  · rw [if_pos hg] at hv
    by_cases hlt : h.confidence * (1/2) < 1/2
    · rw [if_pos hlt] at hv; exact absurd hv (by simp)
    · rw [if_neg hlt] at hv
      injection hv with h2
      subst h2
      exact ⟨rfl, rfl, Or.inr ⟨hg.1, hg.2, hlt, rfl⟩⟩
  · rw [if_neg hg] at hv
    injection hv with h2
    subst h2
    exact ⟨rfl, rfl, Or.inl ⟨hg, rfl⟩⟩

theorem collectRecords_isSome : ∀ (hits : List RawHit),
    (∀ h ∈ hits, ∀ v, validateHit h = some v →
      (mask_text v.matched_text v.category).isSome) →
    (collectRecords hits).isSome
  | [], _ => by simp [collectRecords]
  | h :: hs, hall => by
    rw [collectRecords]
    cases hv : validateHit h with
    | none =>
      exact collectRecords_isSome hs (fun h2 hm => hall h2 (List.mem_cons_of_mem _ hm))
    | some v =>
      have hm1 := hall h (List.mem_cons_self _ _) v hv
      cases hmk : mask_text v.matched_text v.category with
      | none => rw [hmk] at hm1; simp at hm1
      | some mk =>
        have hm2 := collectRecords_isSome hs
          (fun h2 hm => hall h2 (List.mem_cons_of_mem _ hm))
        cases hrec : collectRecords hs with
        | none => rw [hrec] at hm2; simp at hm2
        | some rs =>
          dsimp only
          rw [hmk]
          rfl

/-- C9: analysis is total: for every input text, including the empty string,
`analyze` returns a well-formed report rather than raising, with
total_matches counting the matches and has_sensitive_data tracking their
presence; every internal step is total on what the pipeline feeds it. -/
theorem C9_totality (text : List Char) :
    ∃ r, analyze text = some r ∧ r.total_matches = r.«matches».length ∧
      (r.has_sensitive_data = true ↔ r.«matches» ≠ []) := by
  have hsome : (collectRecords (scan text)).isSome := by
    apply collectRecords_isSome
    intro h hm v hv
    obtain ⟨hvc, hvm, _⟩ := validateHit_some h v hv
    rw [hvc, hvm]
    by_cases hcat : h.category = "email"
    · exact scan_email_mask_some text h hm hcat
    · exact mask_text_isSome_of_ne_email _ _ hcat
  obtain ⟨ms, hms⟩ := Option.isSome_iff_exists.mp hsome
  rw [analyze, analyzeHits, hms]
  refine ⟨_, rfl, rfl, ?_⟩
  dsimp only
  simp only [decide_eq_true_eq]
  exact ⟨fun h2 => List.ne_nil_of_length_pos h2,
    fun h2 => List.length_pos_of_ne_nil h2⟩

theorem catalog_cc_conf : ∀ entry ∈ patternCatalog, ∀ pat ∈ entry.2,
    entry.1 = "credit_card" → pat.2.2.2 = 0.95 ∨ pat.2.2.2 = 0.7 := by
  with_unfolding_all decide

theorem patternHitsGo_category : ∀ (sps : List (Nat × Nat)) (conf : ℚ)
    (cat desc : String) (sens : SensitivityLevel) (text : List Char) (h : RawHit),
    h ∈ patternHitsGo cat desc sens text sps conf → h.category = cat
  | [], conf, cat, desc, sens, text, h, hm => by simp [patternHitsGo] at hm
  | sp :: sps, conf, cat, desc, sens, text, h, hm => by
    rw [patternHitsGo] at hm
    rcases List.mem_cons.mp hm with rfl | hm2
    · rfl
    · exact patternHitsGo_category sps _ cat desc sens text h hm2

theorem patternHitsGo_conf_bounds : ∀ (sps : List (Nat × Nat)) (conf c0 : ℚ)
    (cat desc : String) (sens : SensitivityLevel) (text : List Char),
    0 ≤ conf → conf ≤ c0 →
    ∀ h ∈ patternHitsGo cat desc sens text sps conf,
      0 ≤ h.confidence ∧ h.confidence ≤ c0
  | [], conf, c0, cat, desc, sens, text, h0, hle, h, hm => by simp [patternHitsGo] at hm
  | sp :: sps, conf, c0, cat, desc, sens, text, h0, hle, h, hm => by
    rw [patternHitsGo] at hm
    rcases List.mem_cons.mp hm with rfl | hm2
    · exact ⟨h0, hle⟩
    · by_cases hc : cat = "credit_card" ∧ validate_luhn (subText text sp.1 sp.2) = false
      · rw [if_pos hc] at hm2
        exact patternHitsGo_conf_bounds sps _ c0 cat desc sens text
          (by linarith) (by linarith) h hm2
      · rw [if_neg hc] at hm2
        exact patternHitsGo_conf_bounds sps conf c0 cat desc sens text h0 hle h hm2

theorem scan_cc_conf_bounds (text : List Char) (h : RawHit) (hm : h ∈ scan text)
    (hcc : h.category = "credit_card") : 0 ≤ h.confidence ∧ h.confidence ≤ 0.95 := by
  obtain ⟨entry, hentry, pat, hpat, hgo⟩ := mem_scan_elim text h hm
  have hcatEq : entry.1 = "credit_card" :=
    (patternHitsGo_category _ _ _ _ _ _ h hgo).symm.trans hcc
  have hconf := catalog_cc_conf entry hentry pat hpat hcatEq
  have h0 : (0:ℚ) ≤ pat.2.2.2 := by rcases hconf with h9 | h9 <;> norm_num [h9]
  have h95 : pat.2.2.2 ≤ 0.95 := by rcases hconf with h9 | h9 <;> norm_num [h9]
  exact patternHitsGo_conf_bounds _ _ _ _ _ _ _ h0 h95 h hgo

/-- C10 (amended): under the shipped catalog every credit-card pattern has
base confidence 0.95 or 0.70, every credit-card candidate that fails the
Luhn check is discarded (its halved running confidence is always below
0.5), so the soft-penalty survival path is unreachable and every
credit-card Match of any report passed Luhn; but such a Match need not
carry its unreduced base confidence, because the per-pattern confidence
variable keeps the 0.5 penalty of earlier failed-Luhn matches of the same
pattern. -/
theorem C10_cc_luhn_always_discards :
    (∀ entry ∈ patternCatalog, ∀ pat ∈ entry.2, entry.1 = "credit_card" →
      pat.2.2.2 = 0.95 ∨ pat.2.2.2 = 0.7) ∧
    (∀ (text : List Char) (h : RawHit), h ∈ scan text → h.category = "credit_card" →
      validate_luhn h.matched_text = false → validateHit h = Option.none) ∧
    (∀ (text : List Char) (r : ScanReport), analyze text = some r →
      ∀ m ∈ r.«matches», m.category = "credit_card" →
        validate_luhn m.matched_text = true) := by
  refine ⟨catalog_cc_conf, ?_, ?_⟩
  · intro text h hm hcc hluhn
    have hb := scan_cc_conf_bounds text h hm hcc
    rw [validateHit, if_pos ⟨hcc, hluhn⟩, if_pos (by linarith [hb.2])]
  · intro text r hr m hm hcat
    obtain ⟨ms, hcr, hmm⟩ := analyze_elim text r hr
    rw [hmm] at hm
    obtain ⟨h, v, mk, hmemscan, hv, hmk, rfl⟩ :=
      mem_collectRecords (scan text) ms hcr m (mem_deduplicate hm)
    obtain ⟨hvc, hvm, hvor⟩ := validateHit_some h v hv
    simp only [mkRecord] at hcat ⊢
    rw [hvc] at hcat
    rw [hvm]
    have hb := scan_cc_conf_bounds text h hmemscan hcat
    rcases hvor with ⟨hng, rfl⟩ | ⟨_, _, hnlt, _⟩
    · cases hl : validate_luhn v.matched_text with
      | false => exact absurd ⟨hcat, hl⟩ hng
      | true => rfl
    · exact absurd (by linarith [hb.2]) hnlt

/-- Counterexample to C10 as stated: on "4532015112830367 4532015112830366"
the report contains a credit-card Match (the valid second card, span 17-33)
whose confidence is 0.47 = round(0.475, 2) rather than its base 0.95 or
0.7: the failed-Luhn halving of the first match persisted in the shared
per-pattern confidence variable. -/
theorem C10_counterexample :
    ((analyze "4532015112830367 4532015112830366".toList).map
      (fun r => r.«matches».any (fun m =>
        m.category == "credit_card" && m.start_pos == 17 &&
          decide (m.confidence = 0.47) &&
          decide (¬ (m.confidence = 0.95 ∨ m.confidence = 0.7)))))
      = some true := by
  with_unfolding_all decide

/-- Witness for the amended C10 at concrete inputs. -/
theorem C10_cc_luhn_always_discards_witness :
    validateHit c10Hit = Option.none ∧ validate_luhn c10Rec.matched_text = true :=
  ⟨C10_cc_luhn_always_discards.2.1 "4532015112830367".toList c10Hit
      (by with_unfolding_all decide) rfl (by decide),
    C10_cc_luhn_always_discards.2.2 "4111111111111111".toList
      ((analyze "4111111111111111".toList).getD noReport) (by with_unfolding_all decide)
      c10Rec (by with_unfolding_all decide) rfl⟩

/-- Supporting fact: the overall sensitivity_level of a report is computed
from the validated candidates before deduplication (the loop accumulator),
not from the deduplicated match list. -/
theorem analyzeHits_sensitivity_level (hits : List RawHit) (r : ScanReport)
    (h : analyzeHits hits = some r) : r.sensitivity_level = (highestOf hits).value := by
  rw [analyzeHits] at h
  cases hcr : collectRecords hits with
  | none => rw [hcr] at h; exact absurd h (by simp)
  | some ms =>
    rw [hcr] at h
    cases h
    rfl
